import Mathlib

/-!
# opendoor-chat backend: inbound e-mail handler, shutdown registration, user repository

Shallow embedding of `cmd/backend/main.go` and `user-svc/repo/user_repo.go`.

* Go strings are byte sequences (`GoString`, a list of byte values below 256).
* Collaborators that live outside the embedded files (the MIME decoder, the
  forwarding service, the document store) are explicit arguments; what they
  were asked to do is recorded in a trace returned next to the Go result.
-/

namespace Backend

/-! ## Part 1: `cmd/backend/main.go` -/

/-- Go `error` values seen by `main.go`: only the message is observed (it is logged). -/
structure GoErr where
  msg : String
deriving DecidableEq, Repr

/-- The fields of `enmime.Envelope` that the specification names. -/
structure Envelope where
  sender : String
  recipients : List String
  subject : String
  text : String
  html : String
deriving DecidableEq, Repr

/-- The part of `kgo.Record` the handler reads: `rec.Value`, plus its topic. -/
structure Record where
  Topic : String
  Value : List Nat
deriving DecidableEq, Repr

/-- The topics section of the Kafka configuration (`cfg.Kafka.Topics`). -/
structure KafkaTopics where
  InboundEmails : String
deriving DecidableEq, Repr

/-- The Kafka section of the configuration (`cfg.Kafka`). -/
structure KafkaConfig where
  User : String
  Topics : KafkaTopics
deriving DecidableEq, Repr

/-- The fields of `opendoorchat.Config` that `main.go` reads. -/
structure Config where
  MailerSendApiKey : String
  LogLevel : String
  Kafka : KafkaConfig
  Mongo : String
deriving DecidableEq, Repr

/-- The Mail Transport Client built by `mailersend.NewMailer(cfg.MailerSendApiKey)`. -/
structure Mailer where
  apiKey : String
deriving DecidableEq, Repr

/-- Constructor `mailersend.NewMailer`. -/
def NewMailer (apiKey : String) : Mailer := ⟨apiKey⟩

/-- What one call of `emailService.ForwardInboundEmail` did: the envelopes it handed to
the mailer's `Send`, in order, and the error it returned (`none` is Go `nil`). -/
structure ForwardResult where
  sends : List Envelope
  err : Option GoErr
deriving DecidableEq, Repr

/-- The forwarding service `emailsvc.EmailService`, an arbitrary collaborator. -/
structure EmailService where
  ForwardInboundEmail : Config → Mailer → Envelope → ForwardResult

/-- Observable actions of one handler invocation. -/
inductive Event where
  | logError (err : GoErr)
  | forwardInboundEmail (cfg : Config) (m : Mailer) (inbound : Envelope)
  | send (m : Mailer) (env : Envelope)
deriving DecidableEq, Repr

/-- Result of one handler invocation as the Record Consumer sees it.  The Go handler type
is `func(*kgo.Record)`: it has no result, so `propagated` records what a `return` hands back. -/
structure HandlerRun where
  events : List Event
  propagated : Option GoErr
deriving DecidableEq, Repr

/-- The MIME decoder `enmime.ReadEnvelope(bytes.NewReader(rec.Value))`, an arbitrary collaborator. -/
abbrev ReadEnvelope := List Nat → Except GoErr Envelope

/-- The closure passed to `cl.SetRecordHandler` in `startEmailSvcConsumers`
(main.go lines 118-129); it captures `cfg`, `emailService` and `m`. -/
def inboundEmailsHandler (readEnvelope : ReadEnvelope) (cfg : Config)
    (emailService : EmailService) (m : Mailer) (rec : Record) : HandlerRun :=
  match readEnvelope rec.Value with
  | .error err =>
    -- log.Error().Err(err).Send(); return
    { events := [Event.logError err], propagated := none }
  | .ok inbound =>
    let r := emailService.ForwardInboundEmail cfg m inbound
    let called := Event.forwardInboundEmail cfg m inbound :: r.sends.map (Event.send m)
    match r.err with
    | some err =>
      -- log.Error().Err(err).Send(); return
      { events := called ++ [Event.logError err], propagated := none }
    | none => { events := called, propagated := none }

/-- Test for the event "the forwarding logic was invoked". -/
def Event.isForward : Event → Bool
  | .forwardInboundEmail _ _ _ => true
  | _ => false

/-- Test for the event "the mailer's Send was invoked". -/
def Event.isSend : Event → Bool
  | .send _ _ => true
  | _ => false

/-- The calls of the forwarding logic in a trace, with their arguments. -/
def forwardCalls : List Event → List (Config × Mailer × Envelope)
  | [] => []
  | .forwardInboundEmail cfg m inbound :: es => (cfg, m, inbound) :: forwardCalls es
  | _ :: es => forwardCalls es

/-! ### Shutdown registration -/

/-- The three cleanup closures `main.go` registers. -/
inductive Cleanup where
  | dbDisconnect      -- initDbClient: dbClient.Disconnect(ctx)
  | srvShutdown       -- listenAndServeRoutes: srv.Shutdown(ctx)
  | clShutdown        -- startEmailSvcConsumers: cl.Shutdown()
deriving DecidableEq, Repr

/-- Lifecycle phases of the Shutdown Coordinator (specification 4.4). -/
inductive Phase where
  | idle
  | shuttingDown
  | done
deriving DecidableEq, Repr

/-- Modelled from the spec: the shutdown registry behind `opendoorchat.GracefulShutdownManager`,
which is not in src.  The specification describes it as a global registry, shared mutable
state (9), holding an ordered collection of cleanup callbacks (3) and going through the
phases of 4.4; `ran` lists the callbacks that have been run. -/
structure ShutdownRegistry where
  phase : Phase
  handlers : List Cleanup
  ran : List Cleanup
deriving DecidableEq, Repr

/-- Modelled from the spec: the registry at process start, idle with no callback registered. -/
def ShutdownRegistry.initial : ShutdownRegistry :=
  { phase := Phase.idle, handlers := [], ran := [] }

/-- Modelled from the spec: a value of type `opendoorchat.GracefulShutdownManager`.  The
registry being global (9), the value carries no state of its own: `main.go` builds the
zero value and hands copies of it to the start-up functions, and every copy denotes the
one shared registry. -/
structure GracefulShutdownManager where
deriving DecidableEq, Repr

/-- Modelled from the spec: `AddHandler(fn)` appends a callback to the registry (4.4);
after the coordinator has left `Idle` no further handler is added. -/
def GracefulShutdownManager.AddHandler (_m : GracefulShutdownManager) (fn : Cleanup)
    (reg : ShutdownRegistry) : ShutdownRegistry :=
  match reg.phase with
  | Phase.idle => { reg with handlers := reg.handlers ++ [fn] }
  | _ => reg

/-- Modelled from the spec: `ShutdownOnInterrupt(timeout)` once the interrupt has arrived.
Every registered callback is run exactly once, a failing callback not stopping the others
(4.4, 8); the transition out of `Idle` happens once.  The time bound is not modelled. -/
def GracefulShutdownManager.ShutdownOnInterrupt (_m : GracefulShutdownManager)
    (reg : ShutdownRegistry) : ShutdownRegistry :=
  match reg.phase with
  | Phase.idle => { reg with phase := Phase.done, ran := reg.ran ++ reg.handlers }
  | _ => reg

/-- Modelled from the spec: the Record Consumer `kafka.SplitConsumerClient` is not in src;
it holds the topic-to-handler registration (3, 4.1) and whether polling has started. -/
structure SplitConsumerClient where
  group : String
  handlers : List (String × (Record → HandlerRun))
  polling : Bool

/-- Modelled from the spec: `kafka.NewSplitConsumerClient(ctx, cfg.Kafka, group)`, a client
with no handler registered that is not polling yet. -/
def NewSplitConsumerClient (_kafka : KafkaConfig) (group : String) : SplitConsumerClient :=
  { group := group, handlers := [], polling := false }

/-- Modelled from the spec: `SetRecordHandler(topic, handlerFn)` fails with a configuration
error if the topic already has a handler or if polling has started (4.1). -/
def SplitConsumerClient.SetRecordHandler (cl : SplitConsumerClient) (topic : String)
    (h : Record → HandlerRun) : Except GoErr SplitConsumerClient :=
  if cl.polling then .error ⟨"polling has started"⟩
  else if cl.handlers.any (fun p => p.1 == topic) then .error ⟨"topic already has a handler"⟩
  else .ok { cl with handlers := cl.handlers ++ [(topic, h)] }

/-- Modelled from the spec: `go cl.Poll(ctx)` marks the client as polling. -/
def SplitConsumerClient.Poll (cl : SplitConsumerClient) : SplitConsumerClient :=
  { cl with polling := true }

/-- Handler lookup by topic, as `Poll` does for each record (4.1). -/
def SplitConsumerClient.handlerFor (cl : SplitConsumerClient) (topic : String) :
    Option (Record → HandlerRun) :=
  (cl.handlers.find? (fun p => p.1 == topic)).map (fun p => p.2)

/-- Function `initDbClient` (main.go lines 67-81): registers the store disconnect.  The
manager is received by value; `reg` is the shared registry before the call. -/
def initDbClient (_cfg : Config) (shutdownManager : GracefulShutdownManager)
    (reg : ShutdownRegistry) : ShutdownRegistry :=
  shutdownManager.AddHandler Cleanup.dbDisconnect reg

/-- Function `listenAndServeRoutes` (main.go lines 83-102): registers the server shutdown. -/
def listenAndServeRoutes (_cfg : Config) (shutdownManager : GracefulShutdownManager)
    (reg : ShutdownRegistry) : ShutdownRegistry :=
  shutdownManager.AddHandler Cleanup.srvShutdown reg

/-- Function `startEmailSvcConsumers` (main.go lines 104-139).  `none` is the `log.Fatal`
exit taken when `SetRecordHandler` fails. -/
def startEmailSvcConsumers (readEnvelope : ReadEnvelope) (cfg : Config)
    (shutdownManager : GracefulShutdownManager) (emailService : EmailService) (m : Mailer)
    (reg : ShutdownRegistry) : Option (SplitConsumerClient × ShutdownRegistry) :=
  let cl := NewSplitConsumerClient cfg.Kafka (cfg.Kafka.User ++ "-" ++ "email-svc")
  match cl.SetRecordHandler cfg.Kafka.Topics.InboundEmails
      (inboundEmailsHandler readEnvelope cfg emailService m) with
  | .error _ => none
  | .ok cl1 => some (cl1.Poll, shutdownManager.AddHandler Cleanup.clShutdown reg)

/-- Function `main` (main.go lines 23-54), up to and including the call of
`ShutdownOnInterrupt`; the result is the registry before and after that call. -/
def main (readEnvelope : ReadEnvelope) (cfg : Config) (emailService : EmailService) :
    Option (ShutdownRegistry × ShutdownRegistry) :=
  let shutdownManager : GracefulShutdownManager := {}
  let m := NewMailer cfg.MailerSendApiKey
  let reg1 := initDbClient cfg shutdownManager ShutdownRegistry.initial
  match startEmailSvcConsumers readEnvelope cfg shutdownManager emailService m reg1 with
  | none => none
  | some (_, reg2) =>
    let reg3 := listenAndServeRoutes cfg shutdownManager reg2
    some (reg3, shutdownManager.ShutdownOnInterrupt reg3)

end Backend

namespace UserRepo

/-! ## Part 2: `user-svc/repo/user_repo.go` -/

/-- A Go string: its bytes, each below 256. -/
abbrev GoString := List Nat

/-! ### Go standard library used by `fixCasing`: UTF-8 and letter case -/

/-- Constant `utf8.RuneError`, U+FFFD. -/
def RuneError : Nat := 0xFFFD

/-- Function `utf8.DecodeRuneInString`: the first rune of `s` and its width in bytes; an
invalid or truncated encoding yields `(RuneError, 1)`. -/
def decodeRune (s : GoString) : Nat × Nat :=
  match s with
  | [] => (RuneError, 0)
  | s0 :: rest =>
    if s0 < 0x80 then (s0, 1)
    else if s0 < 0xC2 ∨ 0xF4 < s0 then (RuneError, 1)
    else
      let sz := if s0 < 0xE0 then 2 else if s0 < 0xF0 then 3 else 4
      let lo := if s0 = 0xE0 then 0xA0 else if s0 = 0xF0 then 0x90 else 0x80
      let hi := if s0 = 0xED then 0x9F else if s0 = 0xF4 then 0x8F else 0xBF
      if rest.length + 1 < sz then (RuneError, 1)
      else
        let s1 := rest.getD 0 0
        if s1 < lo ∨ hi < s1 then (RuneError, 1)
        else if sz ≤ 2 then ((s0 % 32) * 64 + s1 % 64, 2)
        else
          let s2 := rest.getD 1 0
          if s2 < 0x80 ∨ 0xBF < s2 then (RuneError, 1)
          else if sz ≤ 3 then ((s0 % 16) * 4096 + (s1 % 64) * 64 + s2 % 64, 3)
          else
            let s3 := rest.getD 2 0
            if s3 < 0x80 ∨ 0xBF < s3 then (RuneError, 1)
            else ((s0 % 8) * 262144 + (s1 % 64) * 4096 + (s2 % 64) * 64 + s3 % 64, 4)

/-- The runes a `for _, c := range s` loop visits, with at most `fuel` iterations. -/
def runesFuel : Nat → GoString → List Nat
  | 0, _ => []
  | fuel + 1, s =>
    match s with
    | [] => []
    | _ :: _ => (decodeRune s).1 :: runesFuel fuel (s.drop (decodeRune s).2)

/-- The runes of `s` in order; every iteration consumes at least one byte, so
`s.length` iterations suffice. -/
def runes (s : GoString) : List Nat := runesFuel s.length s

/-- Function `utf8.AppendRune`: the UTF-8 encoding of `r`; surrogates and values above
U+10FFFF are written as U+FFFD. -/
def encodeRune (r : Nat) : GoString :=
  if r ≤ 0x7F then [r]
  else if r ≤ 0x7FF then [0xC0 + r / 64, 0x80 + r % 64]
  else if 0x10FFFF < r ∨ (0xD800 ≤ r ∧ r ≤ 0xDFFF) then [0xEF, 0xBF, 0xBD]
  else if r ≤ 0xFFFF then [0xE0 + r / 4096, 0x80 + (r / 64) % 64, 0x80 + r % 64]
  else [0xF0 + r / 262144, 0x80 + (r / 4096) % 64, 0x80 + (r / 64) % 64, 0x80 + r % 64]

/-- Function `strings.Map`: every rune of `s` (an invalid byte counting as U+FFFD) is
replaced by the encoding of its image. -/
def stringsMap (mapping : Nat → Nat) (s : GoString) : GoString :=
  (runes s).flatMap (fun c => encodeRune (mapping c))

/-- The case ranges of package `unicode` above U+00FF, which are not reproduced here:
the simple upper-case and lower-case image of such a code point. -/
structure CaseTables where
  upper : Nat → Nat
  lower : Nat → Nat

/-- Function `unicode.ToUpper`.  ASCII and the Latin-1 case ranges are written out
(U+00B5 and U+00FF have their capitals outside Latin-1); U+FFFD is in no case range;
every other code point is looked up in `tbl`. -/
def unicodeToUpper (tbl : CaseTables) (r : Nat) : Nat :=
  if r ≤ 0x7F then (if 0x61 ≤ r ∧ r ≤ 0x7A then r - 32 else r)
  else if r ≤ 0xFF then
    if r = 0xB5 then 0x39C
    else if (0xE0 ≤ r ∧ r ≤ 0xF6) ∨ (0xF8 ≤ r ∧ r ≤ 0xFE) then r - 32
    else if r = 0xFF then 0x178
    else r
  else if r = RuneError then r
  else tbl.upper r

/-- Function `unicode.ToLower`, laid out as `unicodeToUpper`. -/
def unicodeToLower (tbl : CaseTables) (r : Nat) : Nat :=
  if r ≤ 0x7F then (if 0x41 ≤ r ∧ r ≤ 0x5A then r + 32 else r)
  else if r ≤ 0xFF then
    if (0xC0 ≤ r ∧ r ≤ 0xD6) ∨ (0xD8 ≤ r ∧ r ≤ 0xDE) then r + 32 else r
  else if r = RuneError then r
  else tbl.lower r

/-- The test `c < utf8.RuneSelf` for every byte of `s`. -/
def isASCII (s : GoString) : Bool := s.all (fun c => decide (c < 0x80))

/-- Function `strings.ToUpper`: byte-wise on an all-ASCII string, `strings.Map` with
`unicode.ToUpper` otherwise. -/
def ToUpper (tbl : CaseTables) (s : GoString) : GoString :=
  if isASCII s then s.map (fun c => if 0x61 ≤ c ∧ c ≤ 0x7A then c - 32 else c)
  else stringsMap (unicodeToUpper tbl) s

/-- Function `strings.ToLower`: byte-wise on an all-ASCII string, `strings.Map` with
`unicode.ToLower` otherwise. -/
def ToLower (tbl : CaseTables) (s : GoString) : GoString :=
  if isASCII s then s.map (fun c => if 0x41 ≤ c ∧ c ≤ 0x5A then c + 32 else c)
  else stringsMap (unicodeToLower tbl) s

/-- Function `fixCasing` (user_repo.go lines 120-129).  `name[0]` is the first byte and
`string(name[0])` the UTF-8 encoding of the code point with that value; `name[1:]` is
the string without its first byte. -/
def fixCasing (tbl : CaseTables) (name : GoString) : GoString :=
  let res : GoString := []
  let res := if 0 < name.length then res ++ ToUpper tbl (encodeRune (name.getD 0 0)) else res
  let res := if 1 < name.length then res ++ ToLower tbl (name.drop 1) else res
  res

/-! ### Data model, errors and the document store -/

/-- Type `model.User`; `CreatedAt` is a time stamp. -/
structure User where
  Id : GoString
  FirstName : GoString
  LastName : GoString
  Email : GoString
  Password : GoString
  CreatedAt : Nat
deriving DecidableEq, Repr

/-- The zero value `model.User{}`. -/
def User.zero : User :=
  { Id := [], FirstName := [], LastName := [], Email := [], Password := [], CreatedAt := 0 }

/-- Type `model.UserSearchTerms`. -/
structure UserSearchTerms where
  Email : GoString
deriving DecidableEq, Repr

/-- An `httputil.HttpError` as built by `httputil.NewHttpError(statusCode, statusText,
errText)`; `statusCode` is the externally visible status. -/
structure HttpError where
  statusCode : Nat
  statusText : String
  errText : String
deriving DecidableEq, Repr

/-- Constructor `httputil.NewHttpError`. -/
def NewHttpError (statusCode : Nat) (statusText errText : String) : HttpError :=
  { statusCode := statusCode, statusText := statusText, errText := errText }

/-- Constant `http.StatusBadRequest`. -/
def StatusBadRequest : Nat := 400

/-- Constant `http.StatusNotFound`. -/
def StatusNotFound : Nat := 404

/-- Errors returned by the MongoDB driver. -/
inductive MongoError where
  | ErrNoDocuments                    -- the sentinel mongo.ErrNoDocuments
  | duplicateKey (msg : String)       -- a write error for which mongo.IsDuplicateKeyError holds
  | other (msg : String)              -- any other driver, network or decoding error
deriving DecidableEq, Repr

/-- Method `Error()` of a driver error. -/
def MongoError.Error : MongoError → String
  | .ErrNoDocuments => "mongo: no documents in result"
  | .duplicateKey msg => msg
  | .other msg => msg

/-- Function `mongo.IsDuplicateKeyError`. -/
def IsDuplicateKeyError : MongoError → Bool
  | .duplicateKey _ => true
  | _ => false

/-- The `error` values the repository hands to `httputil.HttpErrorFromErr`: a driver
error, or the error returned by `user.Validate()`. -/
inductive GoError where
  | mongo (e : MongoError)
  | validation (msg : String)
deriving DecidableEq, Repr

/-- Method `Error()`. -/
def GoError.Error : GoError → String
  | .mongo e => e.Error
  | .validation msg => msg

/-- Type `primitive.ObjectID`: twelve bytes. -/
structure ObjectID where
  bytes : List Nat
deriving DecidableEq, Repr

/-- The value of one hexadecimal digit (`encoding/hex`), if the byte is one. -/
def fromHexChar (c : Nat) : Option Nat :=
  if 0x30 ≤ c ∧ c ≤ 0x39 then some (c - 0x30)
  else if 0x61 ≤ c ∧ c ≤ 0x66 then some (c - 0x61 + 10)
  else if 0x41 ≤ c ∧ c ≤ 0x46 then some (c - 0x41 + 10)
  else none

/-- Function `hex.Decode`: two digits per byte; the error is its message. -/
def hexDecode : GoString → Except String (List Nat)
  | [] => .ok []
  | [p] =>
    match fromHexChar p with
    | none => .error "encoding/hex: invalid byte"
    | some _ => .error "encoding/hex: odd length hex string"
  | p :: q :: rest =>
    match fromHexChar p, fromHexChar q with
    | some a, some b =>
      match hexDecode rest with
      | .ok bs => .ok ((a * 16 + b) :: bs)
      | .error e => .error e
    | _, _ => .error "encoding/hex: invalid byte"

/-- Function `primitive.ObjectIDFromHex`: exactly 24 hexadecimal digits. -/
def ObjectIDFromHex (s : GoString) : Except String ObjectID :=
  if s.length ≠ 24 then .error "the provided hex string is not a valid ObjectID"
  else
    match hexDecode s with
    | .ok bs => .ok ⟨bs⟩
    | .error e => .error e

/-- The filters the repository builds: `bson.M{"_id": objectId}` and
`bson.M{"$or": orValues}`, every element of `orValues` being `bson.M{"email": v}`. -/
inductive Filter where
  | byId (objectId : ObjectID)
  | or (orValues : List GoString)
deriving DecidableEq, Repr

/-- A `*mongo.SingleResult`: `Err()` and, for a found document, what `Decode(&user)` gives. -/
structure SingleResult where
  Err : Option MongoError
  Decode : Except MongoError User

/-- The answers of `repo.usersCollection`, an arbitrary collaborator. -/
structure Collection where
  InsertOne : User → Option MongoError
  FindOne : Filter → SingleResult

/-- Requests sent to the document store. -/
inductive StoreCall where
  | InsertOne (doc : User)
  | FindOne (filter : Filter)
deriving DecidableEq, Repr

/-- Result of `CreateUser`, with the store requests it made. -/
structure CreateResult where
  err : Option HttpError
  calls : List StoreCall
deriving DecidableEq, Repr

/-- Result of `GetUser` and `SearchUser`, with the store requests made. -/
structure UserResult where
  user : User
  err : Option HttpError
  calls : List StoreCall
deriving DecidableEq, Repr

/-- The conversion `httputil.HttpErrorFromErr`, an argument of the repository functions
(`none` is Go `nil` on either side). -/
abbrev ErrConv := Option GoError → Option HttpError

/-- Method `CreateUser` (user_repo.go lines 39-56); `Validate` is `user.Validate()` and
`now` is `time.Now()`. -/
def CreateUser (tbl : CaseTables) (HttpErrorFromErr : ErrConv) (Validate : User → Option GoError)
    (usersCollection : Collection) (now : Nat) (user : User) : CreateResult :=
  match Validate user with
  | some err => { err := HttpErrorFromErr (some err), calls := [] }
  | none =>
    let user := { user with Id := [] }
    let user := { user with FirstName := fixCasing tbl user.FirstName }
    let user := { user with LastName := fixCasing tbl user.LastName }
    let user := { user with Email := ToLower tbl user.Email }
    let user := { user with CreatedAt := now }
    match usersCollection.InsertOne user with
    | some err =>
      if IsDuplicateKeyError err then
        { err := some (NewHttpError 409 "" err.Error), calls := [StoreCall.InsertOne user] }
      else
        { err := HttpErrorFromErr (some (GoError.mongo err)), calls := [StoreCall.InsertOne user] }
    | none => { err := none, calls := [StoreCall.InsertOne user] }

/-- Method `GetUser` (user_repo.go lines 58-85). -/
def GetUser (HttpErrorFromErr : ErrConv) (usersCollection : Collection) (id : GoString) :
    UserResult :=
  if id = [] then
    { user := User.zero, err := some (NewHttpError StatusBadRequest "required id is blank" ""),
      calls := [] }
  else
    match ObjectIDFromHex id with
    | .error err =>
      { user := User.zero, err := some (NewHttpError StatusBadRequest "invalid id" err),
        calls := [] }
    | .ok objectId =>
      let res := usersCollection.FindOne (Filter.byId objectId)
      let calls := [StoreCall.FindOne (Filter.byId objectId)]
      match res.Err with
      | some e =>
        if e = MongoError.ErrNoDocuments then
          { user := User.zero, err := some (NewHttpError StatusNotFound "" e.Error),
            calls := calls }
        else
          { user := User.zero, err := HttpErrorFromErr (some (GoError.mongo e)), calls := calls }
      | none =>
        match res.Decode with
        | .error _ =>
          -- line 82 converts res.Err(), not the decode error
          { user := User.zero, err := HttpErrorFromErr (res.Err.map GoError.mongo),
            calls := calls }
        | .ok user => { user := user, err := none, calls := calls }

/-- Method `SearchUser` (user_repo.go lines 87-118). -/
def SearchUser (tbl : CaseTables) (HttpErrorFromErr : ErrConv) (usersCollection : Collection)
    (st : UserSearchTerms) : UserResult :=
  let orValues : List GoString := []
  let orValues := if st.Email ≠ [] then orValues ++ [ToLower tbl st.Email] else orValues
  let res := usersCollection.FindOne (Filter.or orValues)
  let calls := [StoreCall.FindOne (Filter.or orValues)]
  match res.Err with
  | some e =>
    if e = MongoError.ErrNoDocuments then
      { user := User.zero, err := some (NewHttpError StatusNotFound "" e.Error), calls := calls }
    else
      { user := User.zero, err := HttpErrorFromErr (some (GoError.mongo e)), calls := calls }
  | none =>
    match res.Decode with
    | .error err =>
      { user := User.zero, err := HttpErrorFromErr (some (GoError.mongo err)), calls := calls }
    | .ok user => { user := user, err := none, calls := calls }

/-- MongoDB matching of the clause `bson.M{"email": v}` against a stored user document;
an empty `Email` is left out of the document (`omitempty`) and matches no string. -/
def emailClauseMatches (v : GoString) (doc : User) : Bool :=
  decide (doc.Email ≠ []) && decide (doc.Email = v)

/-- MongoDB matching of `bson.M{"$or": orValues}`: some clause matches. -/
def orMatches (orValues : List GoString) (doc : User) : Bool :=
  orValues.any (fun v => emailClauseMatches v doc)

/-! ### Parts of the repository's dependencies that are not in src -/

/-- Modelled from the spec: `httputil.HttpErrorFromErr` is not in src.  Section 7 classifies
repository errors into not-found, conflict, bad-input (validation failure) and internal,
each with its own status; not-found and conflict are built by the repository itself, so the
conversion gives a validation failure the bad-input status 400 and any other error the
internal status 500, and maps `nil` to `nil`. -/
def HttpErrorFromErr : ErrConv
  | none => none
  | some (GoError.validation msg) => some (NewHttpError 400 "" msg)
  | some (GoError.mongo e) => some (NewHttpError 500 "" e.Error)

/-- Modelled from the spec: the method `model.User.Validate` is not in src.  Section 7
names a validation failure as the bad-input class; which users are rejected, and with
which message, is the argument `rule`. -/
def User.Validate (rule : User → Option String) (u : User) : Option GoError :=
  (rule u).map GoError.validation

/-- The four classes of repository error of section 7. -/
inductive ErrClass where
  | notFound
  | conflict
  | badInput
  | internal
deriving DecidableEq, Repr

/-- The externally visible status of a class. -/
def ErrClass.status : ErrClass → Nat
  | .notFound => 404
  | .conflict => 409
  | .badInput => 400
  | .internal => 500

end UserRepo

/-! ## Sample collaborators used to instantiate the statements -/

namespace Backend

/-- A decoded envelope with subject "Hello" and one recipient. -/
def sampleEnvelope : Envelope :=
  { sender := "alice@example.com", recipients := ["bob@example.com"], subject := "Hello",
    text := "hi", html := "" }

/-- A decoder that rejects the empty payload and decodes any other to `sampleEnvelope`. -/
def sampleReadEnvelope : ReadEnvelope :=
  fun payload => if payload = [] then .error ⟨"EOF"⟩ else .ok sampleEnvelope

/-- A forwarding service that sends the envelope once; it reports a provider failure
when `failing` is set. -/
def sampleEmailService (failing : Bool) : EmailService :=
  ⟨fun _ _ inbound =>
    { sends := [inbound], err := if failing then some ⟨"provider status 500"⟩ else none }⟩

/-- A configuration. -/
def sampleConfig : Config :=
  { MailerSendApiKey := "key", LogLevel := "info",
    Kafka := { User := "svc", Topics := { InboundEmails := "inbound-emails" } },
    Mongo := "mongodb://localhost" }

end Backend

namespace UserRepo

/-- The reading of "first character upper-cased, all remaining characters lower-cased"
on characters (runes) rather than bytes, for comparison with `fixCasing`. -/
def capitalised (tbl : CaseTables) (name : GoString) : GoString :=
  match runes name with
  | [] => []
  | c :: cs =>
    encodeRune (unicodeToUpper tbl c) ++ cs.flatMap (fun r => encodeRune (unicodeToLower tbl r))

/-- A stand-in for the case ranges above U+00FF; the examples use no such code point
except U+FFFD. -/
def sampleTables : CaseTables := ⟨fun r => r, fun r => r⟩

/-- The id "507f1f77bcf86cd799439011". -/
def sampleId : GoString :=
  [0x35, 0x30, 0x37, 0x66, 0x31, 0x66, 0x37, 0x37, 0x62, 0x63, 0x66, 0x38,
   0x36, 0x63, 0x64, 0x37, 0x39, 0x39, 0x34, 0x33, 0x39, 0x30, 0x31, 0x31]

/-- The id "not-a-hex-id". -/
def sampleBadId : GoString :=
  [0x6E, 0x6F, 0x74, 0x2D, 0x61, 0x2D, 0x68, 0x65, 0x78, 0x2D, 0x69, 0x64]

/-- A user "jOHN" with e-mail "A@b.c". -/
def sampleUser : User :=
  { Id := [], FirstName := [0x6A, 0x4F, 0x48, 0x4E], LastName := [],
    Email := [0x41, 0x40, 0x62, 0x2E, 0x63], Password := [], CreatedAt := 0 }

/-- A validation rule that rejects users without e-mail address. -/
def sampleRule : User → Option String :=
  fun u => if u.Email = [] then some "email is required" else none

/-- A store without documents that accepts every insert. -/
def emptyCollection : Collection :=
  { InsertOne := fun _ => none,
    FindOne := fun _ =>
      { Err := some MongoError.ErrNoDocuments, Decode := .error MongoError.ErrNoDocuments } }

/-- A store in which every lookup finds a document that does not decode into a `User`. -/
def undecodableCollection : Collection :=
  { InsertOne := fun _ => none,
    FindOne := fun _ =>
      { Err := none, Decode := .error (MongoError.other "cannot decode string into a time") } }

end UserRepo

/-! ## Theorems about `cmd/backend/main.go` -/

namespace Backend

/-- The forwarding calls of a trace that consists of `Send` events only. -/
theorem forwardCalls_map_send (m : Mailer) (l : List Envelope) :
    forwardCalls (l.map (Event.send m)) = [] := by
  induction l with
  | nil => rfl
  | cons a t ih => simp [forwardCalls, ih]

/-- Appending a logged error adds no forwarding call. -/
theorem forwardCalls_append_log (es : List Event) (err : GoErr) :
    forwardCalls (es ++ [Event.logError err]) = forwardCalls es := by
  induction es with
  | nil => rfl
  | cons a t ih => cases a <;> simp [forwardCalls, ih]

/-- The number of forwarding events among `Send` events is zero. -/
theorem countP_isForward_map_send (m : Mailer) (l : List Envelope) :
    (l.map (Event.send m)).countP Event.isForward = 0 := by
  induction l with
  | nil => rfl
  | cons a t ih => simp [List.countP_cons, Event.isForward, ih]

/-- C1: a record whose payload fails to decode makes the inbound-email handler log the
decode error and return, propagating nothing, with no call of the forwarding logic and
no call of the mailer's Send in its trace. -/
theorem inboundEmailsHandler_decode_failure (readEnvelope : ReadEnvelope) (cfg : Config)
    (emailService : EmailService) (m : Mailer) (rec : Record) (err : GoErr)
    (h : readEnvelope rec.Value = .error err) :
    (inboundEmailsHandler readEnvelope cfg emailService m rec).propagated = none ∧
    (inboundEmailsHandler readEnvelope cfg emailService m rec).events = [Event.logError err] ∧
    forwardCalls (inboundEmailsHandler readEnvelope cfg emailService m rec).events = [] ∧
    (inboundEmailsHandler readEnvelope cfg emailService m rec).events.countP Event.isForward = 0 ∧
    (inboundEmailsHandler readEnvelope cfg emailService m rec).events.countP Event.isSend = 0 := by
  simp [inboundEmailsHandler, h, forwardCalls, Event.isForward, Event.isSend]

/-- C1 at the empty payload, which the sample decoder rejects. -/
theorem inboundEmailsHandler_decode_failure_witness :
    sampleReadEnvelope (Record.mk "inbound-emails" []).Value = .error ⟨"EOF"⟩ ∧
    (inboundEmailsHandler sampleReadEnvelope sampleConfig (sampleEmailService false)
      (NewMailer "key") (Record.mk "inbound-emails" [])).events.countP Event.isSend = 0 :=
  ⟨rfl, (inboundEmailsHandler_decode_failure sampleReadEnvelope sampleConfig
    (sampleEmailService false) (NewMailer "key") (Record.mk "inbound-emails" []) ⟨"EOF"⟩
    rfl).2.2.2.2⟩

/-- C2: a record whose payload decodes to `e` makes the handler call the forwarding logic
exactly once, with the configuration and mailer captured at registration and with `e`
itself, so with the same subject and the same recipient list. -/
theorem inboundEmailsHandler_forwards_once (readEnvelope : ReadEnvelope) (cfg : Config)
    (emailService : EmailService) (m : Mailer) (rec : Record) (e : Envelope)
    (h : readEnvelope rec.Value = .ok e) :
    forwardCalls (inboundEmailsHandler readEnvelope cfg emailService m rec).events
      = [(cfg, m, e)] ∧
    (inboundEmailsHandler readEnvelope cfg emailService m rec).events.countP Event.isForward
      = 1 ∧
    ∀ c ∈ forwardCalls (inboundEmailsHandler readEnvelope cfg emailService m rec).events,
      c.1 = cfg ∧ c.2.1 = m ∧ c.2.2.subject = e.subject ∧ c.2.2.recipients = e.recipients := by
  have hcalls : forwardCalls (inboundEmailsHandler readEnvelope cfg emailService m rec).events
      = [(cfg, m, e)] := by
    unfold inboundEmailsHandler
    simp only [h]
    cases hr : (emailService.ForwardInboundEmail cfg m e).err <;>
      simp [forwardCalls, forwardCalls_append_log, forwardCalls_map_send]
  refine ⟨hcalls, ?_, ?_⟩
  · unfold inboundEmailsHandler
    simp only [h]
    cases hr : (emailService.ForwardInboundEmail cfg m e).err <;>
      simp [List.countP_cons, List.countP_append, Event.isForward, countP_isForward_map_send]
  · intro c hc
    rw [hcalls] at hc
    simp only [List.mem_singleton] at hc
    subst hc
    exact ⟨rfl, rfl, rfl, rfl⟩

/-- C2 at a one-byte payload that the sample decoder turns into the "Hello" envelope. -/
theorem inboundEmailsHandler_forwards_once_witness :
    sampleReadEnvelope (Record.mk "inbound-emails" [72]).Value = .ok sampleEnvelope ∧
    forwardCalls (inboundEmailsHandler sampleReadEnvelope sampleConfig (sampleEmailService false)
      (NewMailer "key") (Record.mk "inbound-emails" [72])).events
      = [(sampleConfig, NewMailer "key", sampleEnvelope)] :=
  ⟨rfl, (inboundEmailsHandler_forwards_once sampleReadEnvelope sampleConfig
    (sampleEmailService false) (NewMailer "key") (Record.mk "inbound-emails" [72])
    sampleEnvelope rfl).1⟩

/-- C3: whatever the decoder and the forwarding logic answer, the handler returns without
propagating an error and with at most one call of the forwarding logic in its trace; when
the forward fails, the trace holds that one call followed by the logged error and nothing
after it. -/
theorem inboundEmailsHandler_never_propagates (readEnvelope : ReadEnvelope) (cfg : Config)
    (emailService : EmailService) (m : Mailer) (rec : Record) :
    (inboundEmailsHandler readEnvelope cfg emailService m rec).propagated = none ∧
    (inboundEmailsHandler readEnvelope cfg emailService m rec).events.countP Event.isForward
      ≤ 1 ∧
    (forwardCalls (inboundEmailsHandler readEnvelope cfg emailService m rec).events).length
      ≤ 1 ∧
    ∀ e err, readEnvelope rec.Value = .ok e →
      (emailService.ForwardInboundEmail cfg m e).err = some err →
      (inboundEmailsHandler readEnvelope cfg emailService m rec).events
        = Event.forwardInboundEmail cfg m e ::
            (emailService.ForwardInboundEmail cfg m e).sends.map (Event.send m)
          ++ [Event.logError err] := by
  cases hd : readEnvelope rec.Value with
  | error err0 =>
    refine ⟨?_, ?_, ?_, ?_⟩ <;>
      simp [inboundEmailsHandler, hd, forwardCalls, Event.isForward]
  | ok e0 =>
    cases hr : (emailService.ForwardInboundEmail cfg m e0).err with
    | none =>
      refine ⟨?_, ?_, ?_, ?_⟩
      · simp [inboundEmailsHandler, hd, hr]
      · simp [inboundEmailsHandler, hd, hr, List.countP_cons, Event.isForward,
          countP_isForward_map_send]
      · simp [inboundEmailsHandler, hd, hr, forwardCalls, forwardCalls_map_send]
      · intro e err he hf
        cases he
        rw [hr] at hf
        cases hf
    | some err0 =>
      refine ⟨?_, ?_, ?_, ?_⟩
      · simp [inboundEmailsHandler, hd, hr]
      · simp [inboundEmailsHandler, hd, hr, List.countP_cons, List.countP_append,
          Event.isForward, countP_isForward_map_send]
      · simp [inboundEmailsHandler, hd, hr, forwardCalls, forwardCalls_map_send,
          forwardCalls_append_log]
      · intro e err he hf
        cases he
        rw [hr] at hf
        cases hf
        simp [inboundEmailsHandler, hd, hr]

/-- The consumer set up by `startEmailSvcConsumers` is polling, has the closure
`inboundEmailsHandler` registered for the inbound topic, and the consumer shutdown has
been added to the registry. -/
theorem startEmailSvcConsumers_eq (readEnvelope : ReadEnvelope) (cfg : Config)
    (sm : GracefulShutdownManager) (emailService : EmailService) (m : Mailer)
    (reg : ShutdownRegistry) :
    ∃ cl, startEmailSvcConsumers readEnvelope cfg sm emailService m reg
        = some (cl, sm.AddHandler Cleanup.clShutdown reg) ∧
      cl.polling = true ∧
      cl.handlerFor cfg.Kafka.Topics.InboundEmails
        = some (inboundEmailsHandler readEnvelope cfg emailService m) := by
  simp [startEmailSvcConsumers, NewSplitConsumerClient, SplitConsumerClient.SetRecordHandler,
    SplitConsumerClient.Poll, SplitConsumerClient.handlerFor]

/-- C4: `main` reaches `ShutdownOnInterrupt` with the store disconnect, the consumer
shutdown and the HTTP server shutdown all in the coordinator's registry, and the
shutdown runs each of the three exactly once. -/
theorem main_registers_all_cleanups (readEnvelope : ReadEnvelope) (cfg : Config)
    (emailService : EmailService) :
    ∃ before after, main readEnvelope cfg emailService = some (before, after) ∧
      after = GracefulShutdownManager.ShutdownOnInterrupt {} before ∧
      Cleanup.dbDisconnect ∈ before.handlers ∧
      Cleanup.srvShutdown ∈ before.handlers ∧
      Cleanup.clShutdown ∈ before.handlers ∧
      after.phase = Phase.done ∧
      after.ran.count Cleanup.dbDisconnect = 1 ∧
      after.ran.count Cleanup.srvShutdown = 1 ∧
      after.ran.count Cleanup.clShutdown = 1 := by
  obtain ⟨cl, hcl, -, -⟩ := startEmailSvcConsumers_eq readEnvelope cfg {} emailService
    (NewMailer cfg.MailerSendApiKey) (initDbClient cfg {} ShutdownRegistry.initial)
  refine ⟨listenAndServeRoutes cfg {}
      (GracefulShutdownManager.AddHandler {} Cleanup.clShutdown
        (initDbClient cfg {} ShutdownRegistry.initial)),
    GracefulShutdownManager.ShutdownOnInterrupt {} (listenAndServeRoutes cfg {}
      (GracefulShutdownManager.AddHandler {} Cleanup.clShutdown
        (initDbClient cfg {} ShutdownRegistry.initial))), ?_, rfl, ?_⟩
  · simp only [main, hcl]
  · simp [listenAndServeRoutes, initDbClient, GracefulShutdownManager.AddHandler,
      ShutdownRegistry.initial, GracefulShutdownManager.ShutdownOnInterrupt]

end Backend

/-! ## Theorems about `user-svc/repo/user_repo.go` -/

namespace UserRepo

/-- The encoding of a rune is never empty. -/
theorem encodeRune_ne_nil (r : Nat) : encodeRune r ≠ [] := by
  unfold encodeRune
  split_ifs <;> simp

/-- Lower-casing keeps a non-empty string non-empty. -/
theorem ToLower_ne_nil (tbl : CaseTables) (s : GoString) (h : s ≠ []) : ToLower tbl s ≠ [] := by
  cases s with
  | nil => exact absurd rfl h
  | cons a t =>
    unfold ToLower
    split_ifs
    · simp
    · simp only [stringsMap, runes, List.length_cons, runesFuel, List.flatMap_cons]
      intro hnil
      exact encodeRune_ne_nil _ (List.append_eq_nil.mp hnil).1

/-- U+FFFD has no lower-case image other than itself. -/
theorem unicodeToLower_RuneError (tbl : CaseTables) : unicodeToLower tbl 0xFFFD = 0xFFFD := by
  unfold unicodeToLower RuneError
  rw [if_neg (by decide), if_neg (by decide), if_pos rfl]

/-- With an arbitrary conversion and validation, a rejected user causes no store request. -/
theorem CreateUser_rejected_no_call (tbl : CaseTables) (conv : ErrConv)
    (validate : User → Option GoError) (coll : Collection) (now : Nat) (user : User)
    (err : GoError) (h : validate user = some err) :
    CreateUser tbl conv validate coll now user = { err := conv (some err), calls := [] } := by
  simp [CreateUser, h]

/-- The document `CreateUser` inserts for an accepted user, and the single request made. -/
theorem CreateUser_accepted_calls (tbl : CaseTables) (conv : ErrConv)
    (validate : User → Option GoError) (coll : Collection) (now : Nat) (user : User)
    (h : validate user = none) :
    (CreateUser tbl conv validate coll now user).calls =
      [StoreCall.InsertOne
        { Id := [], FirstName := fixCasing tbl user.FirstName,
          LastName := fixCasing tbl user.LastName, Email := ToLower tbl user.Email,
          Password := user.Password, CreatedAt := now }] := by
  unfold CreateUser
  simp only [h]
  split
  · split <;> rfl
  · rfl

/-- An empty or non-hexadecimal id is rejected before the store is asked: zero user,
status 400, no request. -/
theorem GetUser_rejects_bad_id (conv : ErrConv) (coll : Collection) (id : GoString)
    (h : id = [] ∨ ∃ msg, ObjectIDFromHex id = .error msg) :
    (GetUser conv coll id).user = User.zero ∧
    (∃ e, (GetUser conv coll id).err = some e ∧ e.statusCode = 400) ∧
    (GetUser conv coll id).calls = [] := by
  by_cases hid : id = []
  · simp [GetUser, hid, NewHttpError, StatusBadRequest]
  · rcases h with h | ⟨msg, hmsg⟩
    · exact absurd h hid
    · simp [GetUser, hid, hmsg, NewHttpError, StatusBadRequest]

/-- C6: for an id that is empty or is not a valid hexadecimal object identifier, `GetUser`
returns the zero user and an error of status 400 and sends no request to the store. -/
theorem GetUser_bad_id (conv : ErrConv) (coll : Collection) (id : GoString)
    (h : id = [] ∨ ∃ msg, ObjectIDFromHex id = .error msg) :
    (GetUser conv coll id).user = User.zero ∧
    (∃ e, (GetUser conv coll id).err = some e ∧ e.statusCode = 400) ∧
    (GetUser conv coll id).calls = [] :=
  GetUser_rejects_bad_id conv coll id h

/-- C6 at the id "not-a-hex-id", with a store that would find nothing. -/
theorem GetUser_bad_id_witness :
    (sampleBadId = [] ∨ ∃ msg, ObjectIDFromHex sampleBadId = .error msg) ∧
    (GetUser HttpErrorFromErr emptyCollection sampleBadId).user = User.zero ∧
    (∃ e, (GetUser HttpErrorFromErr emptyCollection sampleBadId).err = some e ∧
      e.statusCode = 400) ∧
    (GetUser HttpErrorFromErr emptyCollection sampleBadId).calls = [] :=
  ⟨Or.inr ⟨_, rfl⟩,
    GetUser_bad_id HttpErrorFromErr emptyCollection sampleBadId (Or.inr ⟨_, rfl⟩)⟩

/-- A user rejected by validation gets the bad-input status and causes no store request. -/
theorem CreateUser_rejects_invalid_user (tbl : CaseTables) (rule : User → Option String)
    (coll : Collection) (now : Nat) (user : User) (h : User.Validate rule user ≠ none) :
    (∃ e, (CreateUser tbl HttpErrorFromErr (User.Validate rule) coll now user).err = some e ∧
      e.statusCode = ErrClass.badInput.status ∧
      e.statusCode ≠ ErrClass.internal.status ∧
      e.statusCode ≠ ErrClass.conflict.status) ∧
    (CreateUser tbl HttpErrorFromErr (User.Validate rule) coll now user).calls = [] := by
  cases hr : rule user with
  | none => simp [User.Validate, hr] at h
  | some msg =>
    have hv : User.Validate rule user = some (GoError.validation msg) := by
      simp [User.Validate, hr]
    rw [CreateUser_rejected_no_call tbl HttpErrorFromErr _ coll now user _ hv]
    simp [HttpErrorFromErr, NewHttpError, ErrClass.status]

/-- C7: for a user that fails validation, `CreateUser` returns a bad-input error (status
400, neither the internal status 500 nor the conflict status 409) and sends no request
to the store. -/
theorem CreateUser_validation_failure (tbl : CaseTables) (rule : User → Option String)
    (coll : Collection) (now : Nat) (user : User) (h : User.Validate rule user ≠ none) :
    (∃ e, (CreateUser tbl HttpErrorFromErr (User.Validate rule) coll now user).err = some e ∧
      e.statusCode = ErrClass.badInput.status ∧
      e.statusCode ≠ ErrClass.internal.status ∧
      e.statusCode ≠ ErrClass.conflict.status) ∧
    (CreateUser tbl HttpErrorFromErr (User.Validate rule) coll now user).calls = [] :=
  CreateUser_rejects_invalid_user tbl rule coll now user h

/-- C7 at a user without e-mail address, which the sample rule rejects. -/
theorem CreateUser_validation_failure_witness :
    User.Validate sampleRule User.zero ≠ none ∧
    (∃ e, (CreateUser sampleTables HttpErrorFromErr (User.Validate sampleRule) emptyCollection 7
        User.zero).err = some e ∧
      e.statusCode = ErrClass.badInput.status ∧
      e.statusCode ≠ ErrClass.internal.status ∧
      e.statusCode ≠ ErrClass.conflict.status) ∧
    (CreateUser sampleTables HttpErrorFromErr (User.Validate sampleRule) emptyCollection 7
      User.zero).calls = [] :=
  ⟨by decide,
    CreateUser_validation_failure sampleTables sampleRule emptyCollection 7 User.zero
      (by decide)⟩

/-- When the store finds a document that does not decode, `GetUser` returns the zero user
and the conversion of `res.Err()`, which is `nil` there, whatever the decode error is. -/
theorem GetUser_decode_failure (conv : ErrConv) (coll : Collection) (id : GoString)
    (oid : ObjectID) (derr : MongoError) (hoid : ObjectIDFromHex id = .ok oid)
    (herr : (coll.FindOne (Filter.byId oid)).Err = none)
    (hdec : (coll.FindOne (Filter.byId oid)).Decode = .error derr) :
    (GetUser conv coll id).user = User.zero ∧ (GetUser conv coll id).err = conv none := by
  have hid : id ≠ [] := by
    intro h
    subst h
    simp [ObjectIDFromHex] at hoid
  unfold GetUser
  rw [if_neg hid]
  simp only [hoid, herr, hdec, Option.map, and_self]

/-- C8: at a store whose lookup finds a document that fails to decode, `GetUser` with the
id "507f1f77bcf86cd799439011" returns the zero user and the conversion of `nil`, not of
the decode error; `SearchUser` at the same store converts the decode error; with the
conversion that maps `nil` to `nil`, `GetUser` returns neither a user nor an error. -/
theorem GetUser_decode_failure_loses_error (tbl : CaseTables) (conv : ErrConv) :
    (GetUser conv undecodableCollection sampleId).user = User.zero ∧
    (GetUser conv undecodableCollection sampleId).err = conv none ∧
    (SearchUser tbl conv undecodableCollection ⟨[0x61, 0x40, 0x62, 0x2E, 0x63]⟩).err
      = conv (some (GoError.mongo (MongoError.other "cannot decode string into a time"))) ∧
    (GetUser HttpErrorFromErr undecodableCollection sampleId).err = none := by
  have h := GetUser_decode_failure conv undecodableCollection sampleId
    ⟨[80, 127, 31, 119, 188, 248, 108, 215, 153, 67, 144, 17]⟩
    (MongoError.other "cannot decode string into a time") rfl rfl rfl
  have h2 := GetUser_decode_failure HttpErrorFromErr undecodableCollection sampleId
    ⟨[80, 127, 31, 119, 188, 248, 108, 215, 153, 67, 144, 17]⟩
    (MongoError.other "cannot decode string into a time") rfl rfl rfl
  refine ⟨h.1, h.2, ?_, ?_⟩
  · simp [SearchUser, undecodableCollection]
  · rw [h2.2]
    rfl

/-- C9: for an accepted user `u`, `CreateUser` inserts one document, whose e-mail is
`ToLower u.Email`; for a non-empty search e-mail, `SearchUser` sends one lookup, the
`$or` filter with the single clause `email = ToLower st.Email`; and when the two
lower-cased addresses agree, that filter matches the inserted document. -/
theorem email_normalisation_agrees (tbl : CaseTables) (conv : ErrConv)
    (validate : User → Option GoError) (coll1 coll2 : Collection) (now : Nat) (u : User)
    (st : UserSearchTerms) (hv : validate u = none) (he : st.Email ≠ []) :
    ∃ doc, (CreateUser tbl conv validate coll1 now u).calls = [StoreCall.InsertOne doc] ∧
      doc.Email = ToLower tbl u.Email ∧
      (SearchUser tbl conv coll2 st).calls
        = [StoreCall.FindOne (Filter.or [ToLower tbl st.Email])] ∧
      (ToLower tbl st.Email = ToLower tbl u.Email →
        orMatches [ToLower tbl st.Email] doc = true) := by
  refine ⟨_, CreateUser_accepted_calls tbl conv validate coll1 now u hv, rfl, ?_, ?_⟩
  · unfold SearchUser
    simp only [ne_eq, he, not_false_eq_true, if_true, List.nil_append]
    split
    · split <;> rfl
    · split <;> rfl
  · intro hsame
    have hne : ToLower tbl u.Email ≠ [] := by
      rw [← hsame]
      exact ToLower_ne_nil tbl st.Email he
    simp [orMatches, emailClauseMatches, hsame, hne]

/-- C9 at the user with e-mail "A@b.c" and the search e-mail "a@B.C". -/
theorem email_normalisation_agrees_witness :
    ∃ doc, (CreateUser sampleTables HttpErrorFromErr (User.Validate sampleRule) emptyCollection
        7 sampleUser).calls = [StoreCall.InsertOne doc] ∧
      doc.Email = [0x61, 0x40, 0x62, 0x2E, 0x63] ∧
      orMatches [ToLower sampleTables [0x61, 0x40, 0x42, 0x2E, 0x43]] doc = true := by
  obtain ⟨doc, h1, h2, -, h4⟩ := email_normalisation_agrees sampleTables HttpErrorFromErr
    (User.Validate sampleRule) emptyCollection emptyCollection 7 sampleUser
    ⟨[0x61, 0x40, 0x42, 0x2E, 0x43]⟩ (by decide) (by decide)
  exact ⟨doc, h1, by rw [h2]; decide, h4 (by decide)⟩

/-- On a name of ASCII bytes `fixCasing` upper-cases the first byte and lower-cases the rest. -/
theorem fixCasing_ascii (tbl : CaseTables) (b : Nat) (t : GoString) (hb : b < 0x80)
    (ht : ∀ c ∈ t, c < 0x80) :
    fixCasing tbl (b :: t) =
      (if 0x61 ≤ b ∧ b ≤ 0x7A then b - 32 else b) ::
        t.map (fun c => if 0x41 ≤ c ∧ c ≤ 0x5A then c + 32 else c) := by
  have henc : encodeRune b = [b] := by
    unfold encodeRune
    rw [if_pos (by omega)]
  have hup : isASCII [b] = true := by simp [isASCII, hb]
  have hlo : isASCII t = true := by
    simp only [isASCII, List.all_eq_true, decide_eq_true_eq]
    exact ht
  cases t with
  | nil => simp [fixCasing, henc, ToUpper, hup]
  | cons c t2 => simp [fixCasing, henc, ToUpper, hup, ToLower, hlo]

/-- On a name of ASCII bytes `fixCasing` is idempotent. -/
theorem fixCasing_ascii_idempotent (tbl : CaseTables) (name : GoString)
    (h : ∀ c ∈ name, c < 0x80) :
    fixCasing tbl (fixCasing tbl name) = fixCasing tbl name := by
  cases name with
  | nil => rfl
  | cons b t =>
    have hb : b < 0x80 := h b (List.mem_cons_self _ _)
    have ht : ∀ c ∈ t, c < 0x80 := fun c hc => h c (List.mem_cons_of_mem _ hc)
    rw [fixCasing_ascii tbl b t hb ht]
    rw [fixCasing_ascii tbl _ _ (by split_ifs <;> omega) (by
      intro c hc
      simp only [List.mem_map] at hc
      obtain ⟨d, hd, rfl⟩ := hc
      have := ht d hd
      split_ifs <;> omega)]
    congr 1
    · split_ifs <;> omega
    · rw [List.map_map]
      apply List.map_congr_left
      intro c _
      simp only [Function.comp]
      split_ifs <;> omega

/-- C10: on the name "é" (bytes C3 A9, the single character U+00E9) `fixCasing` returns
the bytes C3 83 EF BF BD, the two characters U+00C3 and U+FFFD, where upper-casing the
first character gives "É" (C3 89); applied to its own result it returns a third string,
one U+FFFD longer. -/
theorem fixCasing_non_ascii_first_character (tbl : CaseTables) :
    runes [0xC3, 0xA9] = [0xE9] ∧
    capitalised tbl [0xC3, 0xA9] = [0xC3, 0x89] ∧
    fixCasing tbl [0xC3, 0xA9] = [0xC3, 0x83, 0xEF, 0xBF, 0xBD] ∧
    runes (fixCasing tbl [0xC3, 0xA9]) = [0xC3, 0xFFFD] ∧
    fixCasing tbl [0xC3, 0xA9] ≠ capitalised tbl [0xC3, 0xA9] ∧
    fixCasing tbl (fixCasing tbl [0xC3, 0xA9])
      = [0xC3, 0x83, 0xEF, 0xBF, 0xBD, 0xEF, 0xBF, 0xBD] ∧
    fixCasing tbl (fixCasing tbl [0xC3, 0xA9]) ≠ fixCasing tbl [0xC3, 0xA9] := by
  have hr : runes [0xC3, 0xA9] = [0xE9] := by decide
  have hcap : capitalised tbl [0xC3, 0xA9] = [0xC3, 0x89] := by
    simp only [capitalised, hr, List.flatMap_nil, List.append_nil]
    have : unicodeToUpper tbl 0xE9 = 0xC9 := by
      unfold unicodeToUpper
      rw [if_neg (by decide), if_pos (by decide), if_neg (by decide), if_pos (by decide)]
    rw [this]
    decide
  have hup : ToUpper tbl (encodeRune 0xC3) = [0xC3, 0x83] := by
    have h1 : encodeRune 0xC3 = [0xC3, 0x83] := by decide
    have h2 : isASCII [0xC3, 0x83] = false := by decide
    have h3 : runes [0xC3, 0x83] = [0xC3] := by decide
    have h4 : unicodeToUpper tbl 0xC3 = 0xC3 := by
      unfold unicodeToUpper
      rw [if_neg (by decide), if_pos (by decide), if_neg (by decide), if_neg (by decide),
        if_neg (by decide)]
    simp only [h1, ToUpper, h2, stringsMap, h3, List.flatMap_cons, List.flatMap_nil, h4,
      List.append_nil]
    rfl
  have hlow1 : ToLower tbl [0xA9] = [0xEF, 0xBF, 0xBD] := by
    have h1 : isASCII [0xA9] = false := by decide
    have h2 : runes [0xA9] = [0xFFFD] := by decide
    have h3 : encodeRune 0xFFFD = [0xEF, 0xBF, 0xBD] := by decide
    simp only [ToLower, h1, stringsMap, h2, List.flatMap_cons, List.flatMap_nil,
      unicodeToLower_RuneError, h3]
    rfl
  have hlow2 : ToLower tbl [0x83, 0xEF, 0xBF, 0xBD] = [0xEF, 0xBF, 0xBD, 0xEF, 0xBF, 0xBD] := by
    have h1 : isASCII [0x83, 0xEF, 0xBF, 0xBD] = false := by decide
    have h2 : runes [0x83, 0xEF, 0xBF, 0xBD] = [0xFFFD, 0xFFFD] := by decide
    have h3 : encodeRune 0xFFFD = [0xEF, 0xBF, 0xBD] := by decide
    simp only [ToLower, h1, stringsMap, h2, List.flatMap_cons, List.flatMap_nil,
      unicodeToLower_RuneError, h3]
    rfl
  have hfix : fixCasing tbl [0xC3, 0xA9] = [0xC3, 0x83, 0xEF, 0xBF, 0xBD] := by
    simp only [fixCasing, List.length_cons, List.length_nil, List.getD_cons_zero,
      List.drop_succ_cons, List.drop_zero, List.nil_append, hup, hlow1]
    rfl
  have hfix2 : fixCasing tbl [0xC3, 0x83, 0xEF, 0xBF, 0xBD]
      = [0xC3, 0x83, 0xEF, 0xBF, 0xBD, 0xEF, 0xBF, 0xBD] := by
    simp only [fixCasing, List.length_cons, List.length_nil, List.getD_cons_zero,
      List.drop_succ_cons, List.drop_zero, List.nil_append, hup, hlow2]
    rfl
  refine ⟨hr, hcap, hfix, ?_, ?_, ?_, ?_⟩
  · rw [hfix]
    decide
  · rw [hfix, hcap]
    decide
  · rw [hfix, hfix2]
  · rw [hfix, hfix2]
    decide

end UserRepo
